import Mathlib

/-!
Shallow embedding of `src/tic_tac_toe_game.py` (tic-tac-toe, bot vs bot).

Python cells hold `None`, `'X'` or `'O'`; we model them as `Option Marker`.
The 3×3 grid `Board.board` (a Python list of lists of fixed shape 3×3) is
modelled as a function `Fin 3 → Fin 3 → Cell`.  Python list indexing with an
`int` index (which accepts negative indices `-3..-1` by wrapping, and raises
`IndexError` otherwise) is modelled by `pyIdx : Int → Option (Fin 3)`.
Mutating methods are modelled in state-passing style: they return the pair
of the call's result (`Except PyErr α`, where `PyErr` distinguishes the
`ValueError` and `IndexError` raised by the source) and the board after the
call; a raise that happens before any mutation returns the input board.
-/

inductive Marker where
  | X
  | O
deriving DecidableEq, Repr

abbrev Cell := Option Marker

inductive PyErr where
  | valueError
  | indexError
deriving DecidableEq, Repr

/-- The 3×3 grid of `Board.board`: row-major, each cell `None`/`'X'`/`'O'`. -/
abbrev Board := Fin 3 → Fin 3 → Cell

/-- Python indexing of a length-3 list at an `int` index: indices `0..2`
access directly, `-3..-1` wrap around from the end, anything else raises
`IndexError` (modelled by `none`). -/
def pyIdx (i : Int) : Option (Fin 3) :=
  let j := if i < 0 then i + 3 else i
  if h : 0 ≤ j ∧ j < 3 then some ⟨j.toNat, by omega⟩ else none

namespace Board

/-- `Board.__init__`: the empty 3×3 board. -/
def init : Board := fun _ _ => none

/-- `Board.get_cell(row, col)`: `return self.board[row][col]`. -/
def get_cell (b : Board) (row col : Int) : Except PyErr Cell :=
  match pyIdx row with
  | none => .error .indexError
  | some r =>
    match pyIdx col with
    | none => .error .indexError
    | some c => .ok (b r c)

/-- The in-place update `self.board[row][col] = marker` at an already
validated coordinate. -/
def bset (b : Board) (r c : Fin 3) (v : Cell) : Board :=
  fun r' c' => if r' = r ∧ c' = c then v else b r' c'

/-- `Board.place_marker(row, col, marker)`: raises `ValueError` if the cell
is already occupied, otherwise writes the marker.  The occupancy test
`self.board[row][col] is not None` itself indexes the grid, so an
out-of-range coordinate raises `IndexError` first. -/
def place_marker (b : Board) (row col : Int) (marker : Cell) :
    Except PyErr Unit × Board :=
  match pyIdx row with
  | none => (.error .indexError, b)
  | some r =>
    match pyIdx col with
    | none => (.error .indexError, b)
    | some c =>
      if b r c ≠ none then (.error .valueError, b)
      else (.ok (), bset b r c marker)

/-- `Board.is_full()`: `False` as soon as some cell `is None`, else `True`. -/
def is_full (b : Board) : Bool :=
  (List.finRange 3).all fun row =>
    (List.finRange 3).all fun col => b row col ≠ none

/-- `Board.available_moves()`: the `(row, col)` pairs of empty cells,
appended in row-major loop order. -/
def available_moves (b : Board) : List (Fin 3 × Fin 3) :=
  (List.finRange 3).flatMap fun row =>
    (List.finRange 3).filterMap fun col =>
      if b row col = none then some (row, col) else none

/-- The character appended for one cell in `Board.__str__`: a space for
`None`, else the marker itself. -/
def cellStr : Cell → String
  | none => " "
  | some .X => "X"
  | some .O => "O"

/-- One row of `Board.__str__`: cell characters joined by `|`. -/
def rowStr (b : Board) (row : Fin 3) : String :=
  (List.finRange 3).foldl
    (fun acc col => acc ++ cellStr (b row col) ++ if col.val < 2 then "|" else "")
    ""

/-- `Board.__str__`: the three rows with the divider `-+-+-` interleaved,
joined by newlines. -/
def str (b : Board) : String :=
  String.intercalate "\n"
    ((List.finRange 3).flatMap fun row =>
      rowStr b row :: if row.val < 2 then ["-+-+-"] else [])

end Board

namespace GameLogic

/-- `GameLogic.check_win(marker)`: sequentially tests the 3 rows, the 3
columns, the main diagonal `(i, i)` and the anti-diagonal `(i, 2 - i)`
(`Fin.rev i` is `2 - i` on `Fin 3`), returning `True` at the first line
whose three cells all equal the marker. -/
def check_win (b : Board) (m : Marker) : Bool :=
  ((List.finRange 3).any fun row => (List.finRange 3).all fun col => b row col == some m)
  || ((List.finRange 3).any fun col => (List.finRange 3).all fun row => b row col == some m)
  || ((List.finRange 3).all fun i => b i i == some m)
  || ((List.finRange 3).all fun i => b i i.rev == some m)

/-- `GameLogic.check_draw()`: full board and no winner on either side. -/
def check_draw (b : Board) : Bool :=
  b.is_full && !check_win b .X && !check_win b .O

end GameLogic

namespace RandomBot

/-- `RandomBot.make_move(board)`: raises `ValueError` when no move is
available; otherwise picks one entry of `available_moves()` (the
`random.choice` call is modelled by the index `k`, reduced modulo the list
length), places the bot's marker there and returns the coordinate. -/
def make_move (marker : Marker) (b : Board) (k : Nat) :
    Except PyErr (Fin 3 × Fin 3) × Board :=
  let moves := b.available_moves
  if h : moves = [] then (.error .valueError, b)
  else
    let mv := moves.get ⟨k % moves.length, Nat.mod_lt _ (List.length_pos.mpr h)⟩
    match b.place_marker mv.1.val mv.2.val (some marker) with
    | (.ok _, b') => (.ok mv, b')
    | (.error e, b') => (.error e, b')

end RandomBot

/-- `'O' if self.current_player == 'X' else 'X'`. -/
def otherPlayer : Marker → Marker
  | .X => .O
  | .O => .X

/-- The outcome of `GameRunner.run_game`: the win/draw announcements, or the
`except ValueError` branch that breaks out with an error message. -/
inductive Outcome where
  | won (m : Marker)
  | draw
  | error
deriving DecidableEq, Repr

namespace GameRunner

/-- The body of the `while True` loop of `GameRunner.run_game`, iterated with
explicit fuel (`none` means the fuel ran out before the loop ended).  `b` is
the board, `p` the current player, and `choices` feeds one random index to
each `make_move` call (an exhausted list keeps feeding `0`). -/
def run_from (fuel : Nat) (b : Board) (p : Marker) (choices : List Nat) :
    Option Outcome :=
  match fuel with
  | 0 => none
  | fuel + 1 =>
    match RandomBot.make_move p b (choices.headD 0) with
    | (.error _, _) => some .error
    | (.ok _, b') =>
      if GameLogic.check_win b' p then some (.won p)
      else if GameLogic.check_draw b' then some .draw
      else run_from fuel b' (otherPlayer p) choices.tail

/-- `GameRunner.run_game` for a fresh `GameRunner` (empty board, current
player `'X'`), allowing up to 9 loop iterations. -/
def run_game (choices : List Nat) : Option Outcome :=
  run_from 9 Board.init .X choices

end GameRunner

/-- The board whose row-major cells are `a0 .. a8`; used to build concrete
boards in witnesses and counterexamples. -/
def boardOf (a0 a1 a2 a3 a4 a5 a6 a7 a8 : Cell) : Board :=
  fun r c =>
    match r, c with
    | 0, 0 => a0 | 0, 1 => a1 | 0, 2 => a2
    | 1, 0 => a3 | 1, 1 => a4 | 1, 2 => a5
    | 2, 0 => a6 | 2, 1 => a7 | 2, 2 => a8

/-- The number of empty cells, written out cell by cell. -/
def countEmpty (b : Board) : Nat :=
  (if b 0 0 = none then 1 else 0) + (if b 0 1 = none then 1 else 0)
  + (if b 0 2 = none then 1 else 0) + (if b 1 0 = none then 1 else 0)
  + (if b 1 1 = none then 1 else 0) + (if b 1 2 = none then 1 else 0)
  + (if b 2 0 = none then 1 else 0) + (if b 2 1 = none then 1 else 0)
  + (if b 2 2 = none then 1 else 0)

/-- The winning predicate as the spec words it: one of the 8 winning lines
(3 rows, 3 columns, main diagonal, anti-diagonal) is filled with `m`. -/
def winProp (b : Board) (m : Marker) : Prop :=
  (b 0 0 = some m ∧ b 0 1 = some m ∧ b 0 2 = some m)
  ∨ (b 1 0 = some m ∧ b 1 1 = some m ∧ b 1 2 = some m)
  ∨ (b 2 0 = some m ∧ b 2 1 = some m ∧ b 2 2 = some m)
  ∨ (b 0 0 = some m ∧ b 1 0 = some m ∧ b 2 0 = some m)
  ∨ (b 0 1 = some m ∧ b 1 1 = some m ∧ b 2 1 = some m)
  ∨ (b 0 2 = some m ∧ b 1 2 = some m ∧ b 2 2 = some m)
  ∨ (b 0 0 = some m ∧ b 1 1 = some m ∧ b 2 2 = some m)
  ∨ (b 0 2 = some m ∧ b 1 1 = some m ∧ b 2 0 = some m)

/-- The full board used in witnesses: every cell `'X'`. -/
def bFull : Board := fun _ _ => some .X

/-- A board with a single `'X'` at `(0, 0)`. -/
def bX00 : Board := boardOf (some .X) none none none none none none none none

lemma finRange3 : List.finRange 3 = [0, 1, 2] := rfl

lemma row_len (b : Board) (r : Fin 3) :
    (([0, 1, 2] : List (Fin 3)).filterMap fun col =>
      if b r col = none then some (r, col) else none).length =
    (if b r 0 = none then 1 else 0) + (if b r 1 = none then 1 else 0)
      + (if b r 2 = none then 1 else 0) := by
  by_cases h0 : b r 0 = none <;> by_cases h1 : b r 1 = none <;>
    by_cases h2 : b r 2 = none <;>
    simp [List.filterMap_cons, h0, h1, h2]

lemma avail_len (b : Board) : (Board.available_moves b).length = countEmpty b := by
  rw [Board.available_moves, finRange3]
  simp only [List.flatMap_cons, List.flatMap_nil, List.append_nil,
    List.length_append, row_len, countEmpty]
  omega

lemma is_full_iff (b : Board) : b.is_full = true ↔ countEmpty b = 0 := by
  simp only [Board.is_full, finRange3, List.all_cons, List.all_nil,
    Bool.and_eq_true, Bool.and_true, decide_eq_true_eq, countEmpty,
    Nat.add_eq_zero, ite_eq_right_iff, Nat.one_ne_zero, imp_false]
  tauto

lemma avail_nil_iff (b : Board) : b.available_moves = [] ↔ b.is_full = true := by
  rw [← List.length_eq_zero, avail_len, is_full_iff]

lemma mem_avail {b : Board} {mv : Fin 3 × Fin 3} (h : mv ∈ b.available_moves) :
    b mv.1 mv.2 = none := by
  simp only [Board.available_moves, List.mem_flatMap, List.mem_filterMap] at h
  obtain ⟨row, -, col, -, hif⟩ := h
  by_cases hc : b row col = none
  · rw [if_pos hc] at hif
    cases hif
    exact hc
  · rw [if_neg hc] at hif
    cases hif

lemma pyIdx_val (r : Fin 3) : pyIdx (r.val : Int) = some r := by
  fin_cases r <;> rfl

lemma bset_same (b : Board) (r c : Fin 3) (v : Cell) : Board.bset b r c v r c = v := by
  simp [Board.bset]

lemma bset_ne (b : Board) (r c : Fin 3) (v : Cell) {i j : Fin 3}
    (h : ¬(i = r ∧ j = c)) : Board.bset b r c v i j = b i j := by
  simp [Board.bset, h]

lemma countEmpty_bset (b : Board) (r c : Fin 3) (m : Marker)
    (h : b r c = none) :
    countEmpty (Board.bset b r c (some m)) + 1 = countEmpty b := by
  fin_cases r <;> fin_cases c <;>
    simp_all [countEmpty, Board.bset] <;> omega

lemma rev0 : Fin.rev (0 : Fin 3) = 2 := rfl
lemma rev1 : Fin.rev (1 : Fin 3) = 1 := rfl
lemma rev2 : Fin.rev (2 : Fin 3) = 0 := rfl

lemma check_win_iff (b : Board) (m : Marker) :
    GameLogic.check_win b m = true ↔ winProp b m := by
  simp only [GameLogic.check_win, finRange3, List.any_cons, List.any_nil,
    List.all_cons, List.all_nil, Bool.or_eq_true, Bool.and_eq_true,
    Bool.and_true, Bool.or_false, beq_iff_eq, rev0, rev1, rev2, winProp]
  constructor
  · rintro ((((h1 | h2 | h3) | (h4 | h5 | h6)) | h7) | h8)
    exacts [Or.inl h1, Or.inr (Or.inl h2), Or.inr (Or.inr (Or.inl h3)),
      Or.inr (Or.inr (Or.inr (Or.inl h4))),
      Or.inr (Or.inr (Or.inr (Or.inr (Or.inl h5)))),
      Or.inr (Or.inr (Or.inr (Or.inr (Or.inr (Or.inl h6))))),
      Or.inr (Or.inr (Or.inr (Or.inr (Or.inr (Or.inr (Or.inl h7)))))),
      Or.inr (Or.inr (Or.inr (Or.inr (Or.inr (Or.inr (Or.inr h8))))))]
  · rintro (h1 | h2 | h3 | h4 | h5 | h6 | h7 | h8)
    exacts [Or.inl (Or.inl (Or.inl (Or.inl h1))),
      Or.inl (Or.inl (Or.inl (Or.inr (Or.inl h2)))),
      Or.inl (Or.inl (Or.inl (Or.inr (Or.inr h3)))),
      Or.inl (Or.inl (Or.inr (Or.inl h4))),
      Or.inl (Or.inl (Or.inr (Or.inr (Or.inl h5)))),
      Or.inl (Or.inl (Or.inr (Or.inr (Or.inr h6)))),
      Or.inl (Or.inr h7), Or.inr h8]

lemma place_marker_empty_int {row col : Int} {r c : Fin 3}
    (hr : pyIdx row = some r) (hc : pyIdx col = some c) (b : Board) (v : Cell)
    (h : b r c = none) : b.place_marker row col v = (.ok (), b.bset r c v) := by
  simp [Board.place_marker, hr, hc, h]

lemma place_marker_occupied_int {row col : Int} {r c : Fin 3}
    (hr : pyIdx row = some r) (hc : pyIdx col = some c) (b : Board) (v : Cell)
    (h : b r c ≠ none) : b.place_marker row col v = (.error .valueError, b) := by
  simp [Board.place_marker, hr, hc, h]

lemma place_marker_empty (b : Board) (r c : Fin 3) (v : Cell) (h : b r c = none) :
    b.place_marker r.val c.val v = (.ok (), b.bset r c v) :=
  place_marker_empty_int (pyIdx_val r) (pyIdx_val c) b v h

lemma place_marker_occupied (b : Board) (r c : Fin 3) (v : Cell) (h : b r c ≠ none) :
    b.place_marker r.val c.val v = (.error .valueError, b) :=
  place_marker_occupied_int (pyIdx_val r) (pyIdx_val c) b v h

lemma no_new_win {b : Board} {r c : Fin 3} {m m' : Marker} (hmm : m ≠ m')
    (hw : GameLogic.check_win b m' = false) :
    GameLogic.check_win (b.bset r c (some m)) m' = false := by
  rw [← Bool.not_eq_true, check_win_iff] at hw ⊢
  intro hcontra
  apply hw
  have keep : ∀ i j : Fin 3, Board.bset b r c (some m) i j = some m' → b i j = some m' := by
    intro i j hij
    by_cases hij' : i = r ∧ j = c
    · rw [hij'.1, hij'.2, bset_same] at hij
      exact absurd (Option.some_injective _ hij) hmm
    · rwa [bset_ne _ _ _ _ hij'] at hij
  unfold winProp at hcontra ⊢
  rcases hcontra with ⟨h1,h2,h3⟩|⟨h1,h2,h3⟩|⟨h1,h2,h3⟩|⟨h1,h2,h3⟩|⟨h1,h2,h3⟩|⟨h1,h2,h3⟩|⟨h1,h2,h3⟩|⟨h1,h2,h3⟩ <;>
    [exact Or.inl ⟨keep _ _ h1, keep _ _ h2, keep _ _ h3⟩;
     exact Or.inr (Or.inl ⟨keep _ _ h1, keep _ _ h2, keep _ _ h3⟩);
     exact Or.inr (Or.inr (Or.inl ⟨keep _ _ h1, keep _ _ h2, keep _ _ h3⟩));
     exact Or.inr (Or.inr (Or.inr (Or.inl ⟨keep _ _ h1, keep _ _ h2, keep _ _ h3⟩)));
     exact Or.inr (Or.inr (Or.inr (Or.inr (Or.inl ⟨keep _ _ h1, keep _ _ h2, keep _ _ h3⟩))));
     exact Or.inr (Or.inr (Or.inr (Or.inr (Or.inr (Or.inl ⟨keep _ _ h1, keep _ _ h2, keep _ _ h3⟩)))));
     exact Or.inr (Or.inr (Or.inr (Or.inr (Or.inr (Or.inr (Or.inl ⟨keep _ _ h1, keep _ _ h2, keep _ _ h3⟩))))));
     exact Or.inr (Or.inr (Or.inr (Or.inr (Or.inr (Or.inr (Or.inr ⟨keep _ _ h1, keep _ _ h2, keep _ _ h3⟩))))))]

lemma make_move_nil (m : Marker) (b : Board) (k : Nat) (h : b.available_moves = []) :
    RandomBot.make_move m b k = (.error .valueError, b) := by
  simp [RandomBot.make_move, h]

lemma make_move_success (m : Marker) (b : Board) (k : Nat) (h : b.available_moves ≠ []) :
    ∃ mv ∈ b.available_moves,
      RandomBot.make_move m b k = (.ok mv, b.bset mv.1 mv.2 (some m)) := by
  have hlt : k % b.available_moves.length < b.available_moves.length :=
    Nat.mod_lt _ (List.length_pos.mpr h)
  refine ⟨b.available_moves.get ⟨k % b.available_moves.length, hlt⟩, List.get_mem _ _ _, ?_⟩
  have hcell := mem_avail (List.get_mem b.available_moves _ hlt)
  rw [RandomBot.make_move]
  simp only [h, dite_false, place_marker_empty _ _ _ _ hcell]

lemma run_from_ok (fuel : Nat) :
    ∀ (b : Board) (p : Marker) (choices : List Nat),
    countEmpty b ≤ fuel → countEmpty b ≠ 0 →
    GameLogic.check_win b .X = false → GameLogic.check_win b .O = false →
    ∃ o, GameRunner.run_from fuel b p choices = some o ∧ o ≠ Outcome.error := by
  induction fuel with
  | zero => intro b p choices hle hne _ _; omega
  | succ fuel ih =>
    intro b p choices hle hne hwX hwO
    have hnil : b.available_moves ≠ [] := fun hn =>
      hne ((is_full_iff b).mp ((avail_nil_iff b).mp hn))
    obtain ⟨mv, hmem, hmm⟩ := make_move_success p b (choices.headD 0) hnil
    have hcell : b mv.1 mv.2 = none := mem_avail hmem
    have hcount : countEmpty (b.bset mv.1 mv.2 (some p)) + 1 = countEmpty b :=
      countEmpty_bset _ _ _ _ hcell
    rw [GameRunner.run_from, hmm]
    by_cases hwin : GameLogic.check_win (b.bset mv.1 mv.2 (some p)) p = true
    · exact ⟨.won p, by simp [hwin], by simp⟩
    · have hwinp : GameLogic.check_win (b.bset mv.1 mv.2 (some p)) p = false :=
        Bool.not_eq_true _ ▸ hwin
      have hother : GameLogic.check_win (b.bset mv.1 mv.2 (some p)) (otherPlayer p) = false := by
        refine no_new_win ?_ ?_
        · cases p <;> simp [otherPlayer]
        · cases p <;> [exact hwO; exact hwX]
      have hX' : GameLogic.check_win (b.bset mv.1 mv.2 (some p)) .X = false := by
        cases p
        · exact hwinp
        · exact hother
      have hO' : GameLogic.check_win (b.bset mv.1 mv.2 (some p)) .O = false := by
        cases p
        · exact hother
        · exact hwinp
      by_cases hdraw : GameLogic.check_draw (b.bset mv.1 mv.2 (some p)) = true
      · exact ⟨.draw, by simp [hwinp, hdraw], by simp⟩
      · have hne' : countEmpty (b.bset mv.1 mv.2 (some p)) ≠ 0 := by
          intro h0
          exact hdraw (by
            simp [GameLogic.check_draw, (is_full_iff _).mpr h0, hX', hO'])
        obtain ⟨o, ho, hoe⟩ := ih (b.bset mv.1 mv.2 (some p)) (otherPlayer p)
          choices.tail (by omega) hne' hX' hO'
        exact ⟨o, by simp [hwinp, hdraw, ho], hoe⟩

lemma pyIdx_none_iff (i : Int) : pyIdx i = none ↔ ¬(-3 ≤ i ∧ i < 3) := by
  unfold pyIdx
  split_ifs with h <;> simp <;> omega

lemma pyIdx_nonneg {i : Int} (h0 : 0 ≤ i) (h3 : i < 3) :
    pyIdx i = some ⟨i.toNat, by omega⟩ := by
  have hlt : ¬ i < 0 := by omega
  simp only [pyIdx, hlt, if_false]
  rw [dif_pos ⟨h0, h3⟩]


/-- C1: `GameLogic.check_win(marker)` is true iff one of the 8 winning lines
(3 rows, 3 columns, main diagonal `(0,0)-(1,1)-(2,2)`, anti-diagonal
`(0,2)-(1,1)-(2,0)`) has all three cells equal to the marker.  The embedded
`check_win` is a pure function of the board, so it cannot mutate it. -/
theorem check_win_matches_winning_lines (b : Board) (m : Marker) :
    GameLogic.check_win b m = true ↔ winProp b m :=
  check_win_iff b m

/-- C2: `GameLogic.check_draw()` is true iff the board is full and
`check_win` is false for both markers; consequently it is false on any full
board on which either marker has a winning line. -/
theorem check_draw_iff_full_and_no_winner (b : Board) :
    (GameLogic.check_draw b = true ↔
      b.is_full = true ∧ GameLogic.check_win b .X = false
        ∧ GameLogic.check_win b .O = false)
    ∧ ∀ m : Marker, b.is_full = true → GameLogic.check_win b m = true →
        GameLogic.check_draw b = false := by
  constructor
  · rw [GameLogic.check_draw]
    simp only [Bool.and_eq_true, Bool.not_eq_true']
    exact and_assoc
  · intro m hfull hwin
    cases m <;> simp [GameLogic.check_draw, hwin]

/-- C2 witness at a full all-`'X'` board. -/
theorem check_draw_iff_full_and_no_winner_witness :
    GameLogic.check_draw bFull = false :=
  (check_draw_iff_full_and_no_winner bFull).2 .X (by decide) (by decide)

/-- C3: every run of `GameRunner.run_game` from the empty board with `'X'`
to move, whatever indices the random source produces, ends within 9 loop
iterations (the fuel `9` of `run_from` is never exhausted) in one of the
outcomes Won(X), Won(O) or Draw — never in the error branch. -/
theorem run_game_terminates_won_or_draw (choices : List Nat) :
    ∃ o, GameRunner.run_game choices = some o ∧
      (o = Outcome.won .X ∨ o = Outcome.won .O ∨ o = Outcome.draw) := by
  obtain ⟨o, ho, hoe⟩ := run_from_ok 9 Board.init .X choices
    (le_of_eq (by rfl)) (by decide) (by rfl) (by rfl)
  refine ⟨o, ho, ?_⟩
  cases o with
  | won m => cases m
             · exact Or.inl rfl
             · exact Or.inr (Or.inl rfl)
  | draw => exact Or.inr (Or.inr rfl)
  | error => exact absurd rfl hoe

/-- C4: at an in-bounds coordinate, `place_marker` on an occupied cell
raises `ValueError` and returns the board unchanged, while on an empty cell
it succeeds and a subsequent `get_cell` there returns the placed marker. -/
theorem place_marker_occupied_fails_empty_succeeds (b : Board) (r c : Fin 3)
    (m : Marker) :
    (b r c ≠ none →
      b.place_marker r.val c.val (some m) = (.error .valueError, b))
    ∧ (b r c = none →
      (b.place_marker r.val c.val (some m)).1 = .ok ()
      ∧ Board.get_cell (b.place_marker r.val c.val (some m)).2 r.val c.val
          = .ok (some m)) := by
  constructor
  · exact place_marker_occupied b r c (some m)
  · intro h
    rw [place_marker_empty b r c (some m) h]
    exact ⟨rfl, by simp [Board.get_cell, pyIdx_val, bset_same]⟩

/-- C4 witness: `(0,0)` occupied on `bX00` rejects; `(0,0)` empty on the
fresh board accepts and reads back. -/
theorem place_marker_occupied_fails_empty_succeeds_witness :
    bX00.place_marker 0 0 (some .O) = (.error .valueError, bX00)
    ∧ (Board.init.place_marker 0 0 (some .X)).1 = .ok ()
    ∧ Board.get_cell (Board.init.place_marker 0 0 (some .X)).2 0 0
        = .ok (some .X) :=
  ⟨(place_marker_occupied_fails_empty_succeeds bX00 0 0 .O).1 (by decide),
   ((place_marker_occupied_fails_empty_succeeds Board.init 0 0 .X).2 rfl).1,
   ((place_marker_occupied_fails_empty_succeeds Board.init 0 0 .X).2 rfl).2⟩

/-- C5: `RandomBot.make_move` raises `ValueError` exactly when
`available_moves()` is empty, leaving the board untouched; otherwise it
returns some coordinate of the available set and the board with the bot's
own marker placed there (the `.2` component is the board after the embedded
`place_marker` call). -/
theorem make_move_fails_iff_no_moves (m : Marker) (b : Board) (k : Nat) :
    (b.available_moves = [] →
      RandomBot.make_move m b k = (.error .valueError, b))
    ∧ (b.available_moves ≠ [] → ∃ mv ∈ b.available_moves,
        RandomBot.make_move m b k = (.ok mv, b.bset mv.1 mv.2 (some m))) :=
  ⟨make_move_nil m b k, make_move_success m b k⟩

/-- C5 witness: the full board rejects; the fresh board moves at `(0,0)`. -/
theorem make_move_fails_iff_no_moves_witness :
    RandomBot.make_move .O bFull 0 = (.error .valueError, bFull)
    ∧ ∃ mv ∈ Board.init.available_moves,
        RandomBot.make_move .X Board.init 0
          = (.ok mv, Board.init.bset mv.1 mv.2 (some .X)) :=
  ⟨(make_move_fails_iff_no_moves .O bFull 0).1 (by decide),
   (make_move_fails_iff_no_moves .X Board.init 0).2 (by decide)⟩

/-- C6 counterexample: `-1` is outside `{0,1,2}`, yet `get_cell(-1, 0)`
does not fail — Python list indexing wraps negative indices, so it reads
cell `(2, 0)` and returns it. -/
theorem get_cell_negative_index_no_error :
    ((-1 : Int) ≠ 0 ∧ (-1 : Int) ≠ 1 ∧ (-1 : Int) ≠ 2)
    ∧ Board.get_cell Board.init (-1) 0 = .ok none := ⟨by decide, rfl⟩

/-- C6 (amended): `get_cell` fails, with an `IndexError`-kind error, iff
`row` or `col` is outside the Python index range `{-3,…,2}` of a length-3
list (negative indices wrap); on `{0,1,2}×{0,1,2}` it returns the cell
without error. -/
theorem get_cell_python_bounds (b : Board) (row col : Int) :
    (Board.get_cell b row col = .error .indexError ↔
      ¬(-3 ≤ row ∧ row < 3 ∧ -3 ≤ col ∧ col < 3))
    ∧ ((∃ x, Board.get_cell b row col = .ok x) ↔
      (-3 ≤ row ∧ row < 3 ∧ -3 ≤ col ∧ col < 3))
    ∧ ∀ (h0 : 0 ≤ row) (h3 : row < 3) (k0 : 0 ≤ col) (k3 : col < 3),
        Board.get_cell b row col
          = .ok (b ⟨row.toNat, by omega⟩ ⟨col.toNat, by omega⟩) := by
  have hrange : ∀ i : Int, ∀ r : Fin 3, pyIdx i = some r → -3 ≤ i ∧ i < 3 := by
    intro i r h
    by_contra hn
    rw [(pyIdx_none_iff i).mpr hn] at h
    cases h
  refine ⟨?_, ?_, ?_⟩
  · cases hr : pyIdx row <;> cases hc : pyIdx col
    · have := (pyIdx_none_iff row).mp hr
      simp only [Board.get_cell, hr]
      simp
      omega
    · have := (pyIdx_none_iff row).mp hr
      simp only [Board.get_cell, hr]
      simp
      omega
    · have := (pyIdx_none_iff col).mp hc
      simp only [Board.get_cell, hr, hc]
      simp
      omega
    · have h1 := hrange _ _ hr
      have h2 := hrange _ _ hc
      simp only [Board.get_cell, hr, hc]
      simp
      omega
  · cases hr : pyIdx row <;> cases hc : pyIdx col
    · have := (pyIdx_none_iff row).mp hr
      simp only [Board.get_cell, hr]
      simp
      omega
    · have := (pyIdx_none_iff row).mp hr
      simp only [Board.get_cell, hr]
      simp
      omega
    · have := (pyIdx_none_iff col).mp hc
      simp only [Board.get_cell, hr, hc]
      simp
      omega
    · have h1 := hrange _ _ hr
      have h2 := hrange _ _ hc
      simp only [Board.get_cell, hr, hc]
      simp
      omega
  · intro h0 h3 k0 k3
    rw [Board.get_cell, pyIdx_nonneg h0 h3, pyIdx_nonneg k0 k3]

/-- C6 witness: in-range read on the fresh board. -/
theorem get_cell_python_bounds_witness :
    Board.get_cell Board.init 0 1 = .ok none :=
  (get_cell_python_bounds Board.init 0 1).2.2 (by decide) (by decide)
    (by decide) (by decide)

/-- C7: a fresh board has 9 available moves, and any successful
`place_marker` of a marker — at whatever coordinates Python accepts —
shrinks `available_moves()` by exactly one entry. -/
theorem available_moves_nine_and_decreases (b : Board) (row col : Int)
    (m : Marker) :
    Board.init.available_moves.length = 9
    ∧ ((b.place_marker row col (some m)).1 = .ok () →
        ((b.place_marker row col (some m)).2.available_moves).length + 1
          = b.available_moves.length) := by
  refine ⟨rfl, ?_⟩
  intro hok
  cases hr : pyIdx row with
  | none => rw [Board.place_marker, hr] at hok; cases hok
  | some r =>
    cases hc : pyIdx col with
    | none => rw [Board.place_marker, hr, hc] at hok; cases hok
    | some c =>
      by_cases hcell : b r c = none
      · rw [place_marker_empty_int hr hc b (some m) hcell]
        rw [avail_len, avail_len, countEmpty_bset b r c m hcell]
      · rw [place_marker_occupied_int hr hc b (some m) hcell] at hok
        cases hok

/-- C7 witness: after `place_marker(0, 0, 'X')` on a fresh board, 8 moves
remain. -/
theorem available_moves_nine_and_decreases_witness :
    ((Board.init.place_marker 0 0 (some .X)).2.available_moves).length + 1
      = Board.init.available_moves.length :=
  (available_moves_nine_and_decreases Board.init 0 0 .X).2 rfl

/-- C8: the write-once invariant.  `place_marker` — the only state-changing
`Board` method (in this embedding `get_cell`, `is_full`, `available_moves`
and `str` are functions of the board and return no board) — never changes a
cell that already holds a marker: whatever coordinates and marker value it
is called with, and whether it succeeds or raises, the occupied cell keeps
its marker. -/
theorem place_marker_write_once (b : Board) (i j : Fin 3) (m : Marker)
    (row col : Int) (v : Cell) (h : b i j = some m) :
    (b.place_marker row col v).2 i j = some m := by
  cases hr : pyIdx row with
  | none => rw [Board.place_marker, hr]; exact h
  | some r =>
    cases hc : pyIdx col with
    | none => rw [Board.place_marker, hr]; rw [hc]; exact h
    | some c =>
      by_cases hcell : b r c = none
      · rw [place_marker_empty_int hr hc b v hcell]
        have hne : ¬(i = r ∧ j = c) := by
          rintro ⟨rfl, rfl⟩
          rw [h] at hcell
          cases hcell
        show Board.bset b r c v i j = some m
        rw [bset_ne _ _ _ _ hne]
        exact h
      · rw [place_marker_occupied_int hr hc b v hcell]
        exact h

/-- C8 witness: the `'X'` at `(0,0)` survives placing an `'O'` at `(1,1)`. -/
theorem place_marker_write_once_witness :
    (bX00.place_marker 1 1 (some .O)).2 0 0 = some .X :=
  place_marker_write_once bX00 0 0 .X 1 1 (some .O) rfl

/-- C9: `str(board)` for X at `(0,0)`, O at `(1,1)`, all other cells empty,
is exactly `"X| | \n-+-+-\n |O| \n-+-+-\n | | "`. -/
theorem render_x_and_center_o :
    Board.str (boardOf (some .X) none none none (some .O) none none none none)
      = "X| | \n-+-+-\n |O| \n-+-+-\n | | " := rfl

/-- C10: `place_marker` does not validate the marker argument: placing
Python's `None` on an empty in-bounds cell succeeds, yet leaves the board —
in particular the cell and `available_moves()` — unchanged, so placing on
that same cell succeeds again with any marker. -/
theorem place_marker_none_marker_unvalidated (b : Board) (r c : Fin 3)
    (h : b r c = none) :
    (b.place_marker r.val c.val none).1 = .ok ()
    ∧ (b.place_marker r.val c.val none).2 = b
    ∧ (b.place_marker r.val c.val none).2 r c = none
    ∧ (b.place_marker r.val c.val none).2.available_moves = b.available_moves
    ∧ ∀ v : Cell, ((b.place_marker r.val c.val none).2.place_marker
        r.val c.val v).1 = .ok () := by
  have hb : (b.place_marker r.val c.val none).2 = b := by
    rw [place_marker_empty b r c none h]
    funext i j
    by_cases hij : i = r ∧ j = c
    · show Board.bset b r c none i j = b i j
      rw [hij.1, hij.2, bset_same, h]
    · exact bset_ne _ _ _ _ hij
  refine ⟨by rw [place_marker_empty b r c none h], hb, ?_, ?_, ?_⟩
  · rw [hb]; exact h
  · rw [hb]
  · intro v
    rw [hb, place_marker_empty b r c v h]

/-- C10 witness: placing `None` at `(0,0)` on the fresh board. -/
theorem place_marker_none_marker_unvalidated_witness :
    (Board.init.place_marker 0 0 none).1 = .ok ()
    ∧ (Board.init.place_marker 0 0 none).2 = Board.init :=
  ⟨(place_marker_none_marker_unvalidated Board.init 0 0 rfl).1,
   (place_marker_none_marker_unvalidated Board.init 0 0 rfl).2.1⟩
